import Mathlib

/-! Verification development for the core of the herculas/json-ld JSON-LD 1.1
processor: a shallow embedding of the shape predicates, the Create Term
Definition algorithm, inverse-context creation and term selection, together
with theorems checking the natural-language specification against the code. -/

/-- JSON values in the JSON-LD internal representation. Objects keep their
entries in insertion order; JSON-LD requires object keys to be unique.
Numbers are modelled as integers (every number appearing in the claims is
integral). -/
inductive Json where
  | null
  | bool (b : Bool)
  | num (n : Int)
  | str (s : String)
  | arr (items : List Json)
  | obj (entries : List (String × Json))

/-- Association list standing for a JS `Map` (or a plain object used as a
dictionary): entries in insertion order, keys unique. -/
abbrev JsMap (α : Type) := List (String × α)

/-- `Map.prototype.get` / property lookup: the value at the first entry with
the given key. -/
def jmGet {α : Type} (m : JsMap α) (k : String) : Option α :=
  (m.find? (fun p => p.1 == k)).map Prod.snd

/-- `Map.prototype.has`. -/
def jmHas {α : Type} (m : JsMap α) (k : String) : Bool :=
  (jmGet m k).isSome

/-- `Map.prototype.set`: replace in place when the key is present, else
append at the end, as a JS `Map` does. -/
def jmSet {α : Type} (m : JsMap α) (k : String) (v : α) : JsMap α :=
  match m with
  | [] => [(k, v)]
  | (k', v') :: rest => if k' == k then (k, v) :: rest else (k', v') :: jmSet rest k v

/-- `Map.prototype.delete`: remove the entry with the given key. -/
def jmDelete {α : Type} (m : JsMap α) (k : String) : JsMap α :=
  m.filter (fun p => p.1 != k)

/-- The JS property-key list of a value, as returned by `Object.keys`: for a
plain object its own enumerable keys in insertion order, for an array its
index strings, nothing for primitives. -/
def jsObjectKeys : Json → List String
  | .obj kvs => kvs.map Prod.fst
  | .arr l => (List.range l.length).map toString
  | _ => []

/-- Property access `value[key]` for a non-numeric key: first-occurrence
lookup on plain objects, `none` (JS `undefined`) otherwise. -/
def jsonField : Json → String → Option Json
  | .obj kvs, k => jmGet kvs k
  | _, _ => none

/-- The JS `key in value` test for the non-numeric keys the algorithms use. -/
def jsHasField (v : Json) (k : String) : Bool :=
  (jsonField v k).isSome

/-- JS truthiness of a JSON value: `null`, `false`, `0` and the empty string
are falsy; every other value, including empty arrays and objects, is truthy. -/
def jsTruthyJson : Json → Bool
  | .null => false
  | .bool b => b
  | .num n => !(n == 0)
  | .str s => !(s == "")
  | .arr _ => true
  | .obj _ => true

/-- Strict equality of a JSON value with a string literal (`v === "s"`). -/
def jsonEqStr : Json → String → Bool
  | .str t, s => t == s
  | _, _ => false

/-- Test for the JSON `null` value. -/
def jsonIsNull : Json → Bool
  | .null => true
  | _ => false

/-- JS `typeof v === "object"`: true for objects, arrays and `null`. -/
def jsTypeofObject : Json → Bool
  | .null => true
  | .obj _ => true
  | .arr _ => true
  | _ => false

/-- JS truthiness of an optional string slot. Absent (`undefined`) and `null`
are conflated into `none`; both are falsy, as is the empty string. -/
def jsTruthyOptStr : Option String → Bool
  | some s => !(s == "")
  | none => false

/-- String membership test on the elements of a JSON array
(`array.includes("s")`): non-string elements never match. -/
def jsonListContainsStr (l : List Json) (s : String) : Bool :=
  l.any (fun v => jsonEqStr v s)

/-- String elements of a JSON array. Every `@container` array accepted by
isContainer consists of strings only, so on those values this is exact. -/
def jsonStrings (l : List Json) : List String :=
  l.filterMap (fun v => match v with | .str s => some s | _ => none)

/-- Characters matched by the scheme class `[A-Za-z0-9+-.]` of the
isAbsoluteIri regex; inside a character class `+-.` is the range from `+`
(U+002B) to `.` (U+002E), which also admits the comma. -/
def isSchemeChar (c : Char) : Bool :=
  c.isAlpha || c.isDigit || c == '+' || c == ',' || c == '-' || c == '.'

/-- Characters matched by the JS regex class `\s`. -/
def jsWhitespaceChar (c : Char) : Bool :=
  let n := c.toNat
  n == 0x9 || n == 0xa || n == 0xb || n == 0xc || n == 0xd || n == 0x20 ||
  n == 0xa0 || n == 0x1680 || (0x2000 ≤ n && n ≤ 0x200a) ||
  n == 0x2028 || n == 0x2029 || n == 0x202f || n == 0x205f ||
  n == 0x3000 || n == 0xfeff

/-- Tail test for isAbsoluteIri: `[^\s]*$`, every remaining character is
non-whitespace. -/
def noWhitespace (l : List Char) : Bool :=
  l.all (fun c => !jsWhitespaceChar c)

/-- Scheme scanner for isAbsoluteIri: consume scheme-class characters up to a
colon and return the rest. The class excludes the colon, so the first
non-class character must be the colon for the regex to match. -/
def schemeScan : List Char → Option (List Char)
  | [] => none
  | c :: rest =>
    if c == ':' then some rest
    else if isSchemeChar c then schemeScan rest
    else none

/-- Translation of isAbsoluteIri (src/unnamed/part_004 lines 161-165): the
regex `^([A-Za-z][A-Za-z0-9+-.]*|_):[^\s]*$`, i.e. a scheme starting with a
letter, or a single underscore, then a colon, then a whitespace-free tail. -/
def isAbsoluteIri (value : String) : Bool :=
  match value.toList with
  | [] => false
  | c :: rest =>
    if c == '_' then
      match rest with
      | ':' :: tail => noWhitespace tail
      | _ => false
    else if c.isAlpha then
      match schemeScan rest with
      | some tail => noWhitespace tail
      | none => false
    else false

/-- Character-level string prefix test (`s.startsWith(p)`). -/
def strStartsWith (s p : String) : Bool :=
  p.toList.isPrefixOf s.toList

/-- Character-level string suffix test (`s.endsWith(p)`). -/
def strEndsWith (s p : String) : Bool :=
  p.toList.reverse.isPrefixOf s.toList.reverse

/-- Character membership test (`s.includes(c)` for a single character). -/
def strContainsChar (s : String) (c : Char) : Bool :=
  s.toList.contains c

/-- Character-level lower-casing (`s.toLowerCase()` on the characters the
algorithms use). -/
def strToLower (s : String) : String :=
  String.mk (s.toList.map Char.toLower)

/-- Splitting accumulator for splitOnColon. -/
def splitColonAux : List Char → List Char → List String
  | [], acc => [String.mk acc.reverse]
  | c :: rest, acc =>
    if c == ':' then String.mk acc.reverse :: splitColonAux rest []
    else splitColonAux rest (c :: acc)

/-- JS `s.split(":")`: the segments of a string between its colons. -/
def splitOnColon (s : String) : List String :=
  splitColonAux s.toList []

/-- The keyword shape `"@"1*ALPHA`, the regex `^@[a-zA-Z]+$` in the source. -/
def isKeywordForm (s : String) : Bool :=
  match s.toList with
  | '@' :: rest => !rest.isEmpty && rest.all Char.isAlpha
  | _ => false

/-- Translation of isSubject (src/unnamed/part_004 lines 11-28, identical in
src/src/utils/context.ts): an object with no `@value`, `@list` or `@set` key
that has more than one key or lacks an `@id` key. -/
def isSubject (value : Json) : Bool :=
  match value with
  | .obj _ | .arr _ =>
    let keys := jsObjectKeys value
    !keys.contains "@value" && !keys.contains "@list" && !keys.contains "@set" &&
      (decide (1 < keys.length) || !keys.contains "@id")
  | _ => false

/-- Translation of isSubjectRef (src/unnamed/part_004 lines 37-48): an object
whose single key is `@id`. -/
def isSubjectRef (value : Json) : Bool :=
  match value with
  | .obj _ | .arr _ =>
    let keys := jsObjectKeys value
    decide (keys.length = 1) && keys.contains "@id"
  | _ => false

/-- Translation of isValueObject (src/unnamed/part_004 lines 57-67): an
object with an `@value` key. -/
def isValueObject (value : Json) : Bool :=
  match value with
  | .obj _ | .arr _ => jsHasField value "@value"
  | _ => false

/-- Translation of isListObject (src/unnamed/part_004 lines 76-86): an
object with an `@list` key. -/
def isListObject (value : Json) : Bool :=
  match value with
  | .obj _ | .arr _ => jsHasField value "@list"
  | _ => false

/-- Translation of isGraphObject (src/unnamed/part_004 lines 95-108): an
object with an `@graph` key whose only other keys are `@id` or `@index`. -/
def isGraphObject (value : Json) : Bool :=
  match value with
  | .obj _ | .arr _ =>
    let keys := jsObjectKeys value
    keys.contains "@graph" &&
      decide ((keys.filter (fun k => k != "@id" && k != "@index")).length = 1)
  | _ => false

/-- Translation of isSimpleGraph (src/unnamed/part_004 lines 117-125): a
graph object without an `@id` key. -/
def isSimpleGraph (value : Json) : Bool :=
  isGraphObject value && !(jsHasField value "@id")

/-- Translation of isBlankNode (src/unnamed/part_004 lines 134-152, identical
in src/src/utils/context.ts): an object that either has an `@id` whose value
is not a string or starts with an underscore-colon, or has no `@id` and is
empty or has a key outside `@value`, `@set`, `@list`. -/
def isBlankNode (value : Json) : Bool :=
  match value with
  | .obj _ | .arr _ =>
    let keys := jsObjectKeys value
    if keys.contains "@id" then
      match jsonField value "@id" with
      | some (.str s) => strStartsWith s "_:"
      | _ => true
    else
      decide (keys.length = 0) ||
        keys.any (fun k => !(["@value", "@set", "@list"].contains k))
  | _ => false

/-- Keywords accepted as a single container value (cases 2 and 3 of
isContainer). -/
def containerKeywords : List String :=
  ["@graph", "@id", "@index", "@language", "@list", "@set", "@type"]

/-- Translation of isContainer (src/unnamed/part_004 lines 174-207). The
argument is the raw `@container` value: `null`, a string, or an array. The
cases follow the source in order: case 1 `null`; case 2 a keyword string;
case 3 a one-element array; case 4 a two-element array containing `@graph`
(or a three-element one also containing `@set`) that must then contain `@id`
or `@index`; case 5 any remaining array containing `@set` whose members all
come from the six allowed keywords. -/
def isContainer (value : Json) : Bool :=
  match value with
  | .null => true
  | .str s => containerKeywords.contains s
  | .arr l =>
    if l.length == 1 then
      match l with
      | (.str s) :: _ => containerKeywords.contains s
      | _ => false
    else if (l.length == 2 && jsonListContainsStr l "@graph") ||
        (l.length == 3 && jsonListContainsStr l "@graph" && jsonListContainsStr l "@set") then
      jsonListContainsStr l "@id" || jsonListContainsStr l "@index"
    else if jsonListContainsStr l "@set" then
      l.all (fun k =>
        match k with
        | .str s => ["@set", "@index", "@id", "@graph", "@type", "@language"].contains s
        | _ => false)
    else false
  | _ => false

example : isContainer Json.null = true := rfl
example : isContainer (Json.str "@list") = true := rfl
example : isContainer (Json.str "@value") = false := rfl
example : isContainer (Json.arr [Json.str "@index"]) = true := rfl
example : isContainer (Json.arr [Json.str "@graph", Json.str "@id"]) = true := rfl
example : isContainer (Json.arr [Json.str "@graph", Json.str "@id", Json.str "@set"]) = true := rfl
example : isContainer (Json.arr [Json.str "@set", Json.str "@type"]) = true := rfl
example : isContainer (Json.num 3) = false := rfl
example : isAbsoluteIri "http://example.com/x" = true := rfl
example : isAbsoluteIri "relative" = false := rfl
example : isAbsoluteIri "_:b0" = true := rfl
example : isAbsoluteIri "@type" = false := rfl
example : isKeywordForm "@foo" = true := rfl
example : isKeywordForm "@type" = true := rfl
example : isKeywordForm "foo" = false := rfl

/-- Term definition record, mirroring the literal created at step 10 of
createTermDefinition (src/src/algorithms/context.ts lines 492-498): the
first five fields are initialized there; the remaining fields are absent
(`undefined`) until a later step assigns them. Absent and `null` slots are
conflated into `none`; every place the embedded code reads them treats both
alike (JS falsiness or strict checks that both fail). The container mapping
holds the string elements of the stored array. -/
structure TermDefinition where
  id : String
  base : Option String
  prefixFlag : Bool
  protectedFlag : Bool
  reverseFlag : Bool
  typeMapping : Option String := none
  containerMapping : Option (List String) := none
  indexMapping : Option String := none
  scopedContext : Option Json := none
  languageMapping : Option String := none
  directionMapping : Option String := none
  nestValue : Option String := none

/-- Term-to-term map for one type or language key of the inverse context. -/
abbrev ValueTermMap := JsMap String

/-- One container branch of the inverse context: keys `@language`, `@type`,
`@any`. -/
abbrev TypeLanguageMap := JsMap ValueTermMap

/-- Container branches for one IRI of the inverse context. -/
abbrev ContainerTermMap := JsMap TypeLanguageMap

/-- The inverse context: IRI to container branches. -/
abbrev InverseContext := JsMap ContainerTermMap

/-- The active context. Term definition slots hold `TermDefinition | null`.
The previous-context pointer is omitted: none of the embedded algorithms
reads it. -/
structure ActiveContext where
  termDefinitions : JsMap (Option TermDefinition) := []
  baseIri : Option String := none
  originalBaseUrl : Option String := none
  inverseContext : Option InverseContext := none
  vocabularyMapping : Option String := none
  defaultLanguage : Option String := none
  defaultBaseDirection : Option String := none
  processingMode : Option String := none

/-- Errors thrown by the embedded algorithms. jsTypeError stands for a
JS runtime TypeError (a non-string reaching a string method); fuelExhausted
is the recursion bound of the embedding, never reached in any theorem here. -/
inductive JErr where
  | cyclicIriMapping
  | invalidTermDefinition
  | keywordRedefinition
  | invalidProtectedValue
  | invalidTypeMapping
  | invalidReverseProperty
  | invalidIriMapping
  | invalidKeywordAlias
  | invalidContainerMapping
  | invalidScopedContext
  | jsTypeError
  | fuelExhausted

/-- Modelled from the spec: the closed keyword set of `types/keyword.ts`,
a file that is not under src/; the membership list follows section 3 of the
specification. -/
def Keywords : List String :=
  ["@base", "@container", "@context", "@direction", "@graph", "@id", "@import",
   "@included", "@index", "@json", "@language", "@list", "@nest", "@none",
   "@prefix", "@propagate", "@protected", "@reverse", "@set", "@type",
   "@value", "@version", "@vocab", "@any", "@null", "@preserve",
   "@default", "@embed", "@explicit", "@omitDefault", "@requireAll"]

/-- Modelled from the spec: checkVersion of `utils/context.ts` is not under
src/ (only its tests are); per those tests the 1.0 processing mode is
recognised for the strings "1.0" and "json-ld-1.0". -/
def checkVersion10 : Option String → Bool
  | some m => m == "1.0" || m == "json-ld-1.0"
  | none => false

/-- The guard `activeContext.processingMode && checkVersion(processingMode, 1.0)`
used throughout createTermDefinition. -/
def processingMode10 (ac : ActiveContext) : Bool :=
  jsTruthyOptStr ac.processingMode && checkVersion10 ac.processingMode

/-- Truthiness of a `Map.get` result on a `TermDefinition | null` slot: an
actual definition is truthy, a stored `null` or a missing entry is falsy. -/
def isTruthySlot : Option (Option TermDefinition) → Bool
  | some (some _) => true
  | _ => false

/-- Step 4 of createTermDefinition (source lines 455-460): the redefinition
of `@type` must be a map holding at most an `@container` entry equal to
`@set` and a boolean `@protected` entry; this reproduces the disjunction of
failure conditions. An absent value (JS `undefined`) fails the typeof check. -/
def atTypeValueInvalid (value0 : Option Json) : Bool :=
  match value0 with
  | some v =>
    match v with
    | .obj _ | .arr _ =>
      (jsObjectKeys v).any (fun k => !(k == "@container" || k == "@protected")) ||
      (match jsonField v "@container" with
       | some cv => jsTruthyJson cv && !(jsonEqStr cv "@set")
       | none => false) ||
      (match jsonField v "@protected" with
       | some (Json.bool _) => false
       | some _ => true
       | none => false)
    | _ => true
  | none => true

/-- Last-character test of the regex `[:\/\?#\[\]@]$` at source line 601:
the original `@id` string ends with a gen-delim character. -/
def endsWithGenDelim (s : String) : Bool :=
  match s.toList.getLast? with
  | some c =>
    c == ':' || c == '/' || c == '?' || c == '#' || c == '[' || c == ']' || c == '@'
  | none => false

/-- isAbsoluteIri applied to a possibly-null expansion result: JS coerces
`null` to the string "null", which has no colon and fails the pattern. -/
def optIsAbsoluteIri : Option String → Bool
  | some s => isAbsoluteIri s
  | none => false

/-- Whether a string contains a colon anywhere after its first character
(step 6 of the IRI Expansion procedure). -/
def colonAfterFirstChar (s : String) : Bool :=
  (s.toList.drop 1).contains ':'

/-- The part of a string before its first colon. -/
def stringBeforeFirstColon (s : String) : String :=
  String.mk (s.toList.takeWhile (fun c => c != ':'))

/-- The part of a string after its first colon. -/
def stringAfterFirstColon (s : String) : String :=
  String.mk ((s.toList.dropWhile (fun c => c != ':')).drop 1)

mutual

/-- Translation of createTermDefinition (src/src/algorithms/context.ts lines
437-714). The source implements steps 1 to 21 of its documented procedure;
steps 22 to 28 — the `@language`, `@direction`, `@nest` and `@prefix`
entries, the unrecognized-key check, the protected-term check and the final
commit — exist there only as comments (lines 706-713), which this embedding
reproduces by ending without them. In-place mutation of `activeContext` and
`defined` becomes state threading; `fuel` bounds the recursion. -/
def createTermDefinition (fuel : Nat) (activeContext : ActiveContext)
    (localContext : List (String × Json)) (term : String) (defined : JsMap Bool)
    (baseURL : Option String) (termProtected : Bool) (overrideProtected : Bool)
    (remoteContexts : List String) (validateScopedContext : Bool) :
    Except JErr (ActiveContext × JsMap Bool) :=
  match fuel with
  | 0 => .error .fuelExhausted
  | fuel + 1 => do
    let mut ac := activeContext
    let mut dfd := defined
    -- step 1: a finished term returns, a term in progress is a cycle
    match jmGet dfd term with
    | some true => return (ac, dfd)
    | some false => throw JErr.cyclicIriMapping
    | none => pure ()
    -- step 2
    if term == "" then throw JErr.invalidTermDefinition
    dfd := jmSet dfd term false
    -- step 3
    let value0 := jmGet localContext term
    -- steps 4 and 5: `@type` may be redefined under restrictions, other
    -- keywords may not, keyword-shaped terms warn and return
    if term == "@type" then
      if processingMode10 ac then throw JErr.keywordRedefinition
      if atTypeValueInvalid value0 then throw JErr.keywordRedefinition
    else
      if Keywords.contains term then throw JErr.keywordRedefinition
      else if isKeywordForm term then return (ac, dfd)
    -- step 6: stash and delete any previous definition; the source never
    -- re-adds it (the restoring step 27.2 is a comment)
    let previousDefinition := jmGet ac.termDefinitions term
    if isTruthySlot previousDefinition then
      ac := { ac with termDefinitions := jmDelete ac.termDefinitions term }
    -- steps 7 to 9
    let mut simpleTerm := false
    let mut value := Json.null
    match value0 with
    | some Json.null =>
      simpleTerm := true
      value := Json.obj [("@id", Json.null)]
    | some (Json.str s) =>
      simpleTerm := true
      value := Json.obj [("@id", Json.str s)]
    | some (Json.obj kvs) => value := Json.obj kvs
    | some (Json.arr l) => value := Json.arr l
    | _ => throw JErr.invalidTermDefinition
    -- step 10
    let mut defn : TermDefinition :=
      { id := "", base := some "", prefixFlag := false,
        protectedFlag := termProtected, reverseFlag := false }
    -- step 11
    if jsHasField value "@protected" then
      match jsonField value "@protected" with
      | some (Json.bool b) =>
        defn := { defn with protectedFlag := b }
        if processingMode10 ac then throw JErr.invalidTermDefinition
      | _ => throw JErr.invalidProtectedValue
    -- step 12
    if jsHasField value "@type" then
      match jsonField value "@type" with
      | some (Json.str t0) =>
        let r ← expandIri fuel ac t0 false true (some localContext) dfd
        ac := r.2.1
        dfd := r.2.2
        match r.1 with
        | some ty =>
          if ty == "@json" || ty == "@none" then
            if processingMode10 ac then throw JErr.invalidTypeMapping
          else if ty != "@id" && ty != "@vocab" && !isAbsoluteIri ty then
            throw JErr.invalidTypeMapping
          defn := { defn with typeMapping := some ty }
        | none => throw JErr.invalidTypeMapping
      | _ => throw JErr.invalidTypeMapping
    -- step 13
    if jsHasField value "@reverse" then
      if jsHasField value "@id" || jsHasField value "@nest" then
        throw JErr.invalidReverseProperty
      match jsonField value "@reverse" with
      | some (Json.str rev) =>
        if isKeywordForm rev then return (ac, dfd)
        let r ← expandIri fuel ac rev false true (some localContext) dfd
        ac := r.2.1
        dfd := r.2.2
        if !(optIsAbsoluteIri r.1) then throw JErr.invalidIriMapping
        if jsHasField value "@container" then
          let c := (jsonField value "@container").getD Json.null
          if !(jsonEqStr c "@set") && !(jsonEqStr c "@index") && !(jsonIsNull c) then
            throw JErr.invalidReverseProperty
          defn := { defn with
            containerMapping := (match c with | Json.str s => some [s] | _ => none),
            reverseFlag := true }
          ac := { ac with termDefinitions := jmSet ac.termDefinitions term (some defn) }
          dfd := jmSet dfd term true
          return (ac, dfd)
        -- without an `@container` sibling the source neither sets the
        -- reverse flag nor commits: the assignments of procedure steps
        -- 13.6-13.7 sit inside the `@container` branch (lines 550-561), so
        -- control falls through to step 14
      | _ => throw JErr.invalidIriMapping
    -- step 14
    if jsHasField value "@id" && !(jsonEqStr ((jsonField value "@id").getD Json.null) term) then
      let idv := (jsonField value "@id").getD Json.null
      if jsTruthyJson idv then
        match idv with
        | Json.str ids =>
          if !(Keywords.contains ids) && isKeywordForm ids then return (ac, dfd)
          let r ← expandIri fuel ac ids false true (some localContext) dfd
          ac := r.2.1
          dfd := r.2.2
          match r.1 with
          | none => throw JErr.invalidIriMapping
          | some eid =>
            defn := { defn with id := eid }
            if eid == "@context" then throw JErr.invalidKeywordAlias
            if !(Keywords.contains eid) && !(isAbsoluteIri eid) then
              throw JErr.invalidIriMapping
            if (strContainsChar term ':' && !(strStartsWith term ":") && !(strEndsWith term ":")) ||
                strContainsChar term '/' then
              dfd := jmSet dfd term true
              let r2 ← expandIri fuel ac term false true (some localContext) dfd
              ac := r2.2.1
              dfd := r2.2.2
              if r2.1 != some eid then throw JErr.invalidIriMapping
            if !(strContainsChar term ':') && !(strContainsChar term '/') && simpleTerm &&
                endsWithGenDelim ids then
              defn := { defn with prefixFlag := true }
        | _ => throw JErr.invalidIriMapping
    else if strContainsChar term ':' && !(strStartsWith term ":") then
      -- step 15: the destructuring `term.split(":")` keeps only the first
      -- two segments, dropping anything after a second colon
      let parts := splitOnColon term
      let pfx := parts.headD ""
      let sfx := (parts.drop 1).headD ""
      if jsTruthyJson ((jmGet localContext pfx).getD Json.null) then
        let r ← createTermDefinition fuel ac localContext pfx dfd baseURL
          termProtected overrideProtected remoteContexts validateScopedContext
        ac := r.1
        dfd := r.2
        match jmGet ac.termDefinitions pfx with
        | some (some pd) => defn := { defn with id := pd.id ++ sfx }
        | _ => defn := { defn with id := term }
      else
        defn := { defn with id := term }
    else if strContainsChar term '/' then
      -- step 16
      let r ← expandIri fuel ac term false true (some localContext) dfd
      ac := r.2.1
      dfd := r.2.2
      match r.1 with
      | some e =>
        defn := { defn with id := e }
        if !isAbsoluteIri e then throw JErr.invalidIriMapping
      | none => throw JErr.invalidIriMapping
    else if term == "@type" then
      -- step 17
      defn := { defn with id := "@type" }
    else
      -- step 18
      if jsTruthyOptStr ac.vocabularyMapping then
        defn := { defn with id := ac.vocabularyMapping.getD "" ++ term }
      else
        throw JErr.invalidIriMapping
    -- step 19
    if jsHasField value "@container" then
      let c := (jsonField value "@container").getD Json.null
      -- source guard: `!container || container === null || !isContainer(container)`
      if !(jsTruthyJson c) || !(isContainer c) then throw JErr.invalidContainerMapping
      let cl := (match c with | Json.arr l => jsonStrings l | Json.str s => [s] | _ => [])
      defn := { defn with containerMapping := some cl }
      if cl.contains "@type" then
        if !(jsTruthyOptStr defn.typeMapping) then
          defn := { defn with typeMapping := some "@id" }
        else if defn.typeMapping != some "@id" && defn.typeMapping != some "@vocab" then
          throw JErr.invalidTypeMapping
    -- step 20
    if jsHasField value "@index" then
      if processingMode10 ac then throw JErr.invalidTermDefinition
      let hasIndexContainer :=
        (match defn.containerMapping with | some l => l.contains "@index" | none => false)
      if !hasIndexContainer then throw JErr.invalidTermDefinition
      match jsonField value "@index" with
      | some (Json.str idx) =>
        let r ← expandIri fuel ac idx false true (some localContext) dfd
        ac := r.2.1
        dfd := r.2.2
        if !(optIsAbsoluteIri r.1) then throw JErr.invalidTermDefinition
        defn := { defn with indexMapping := some idx }
      | _ => throw JErr.jsTypeError
    -- step 21
    if jsHasField value "@context" then
      if processingMode10 ac then throw JErr.invalidTermDefinition
      let ctx := (jsonField value "@context").getD Json.null
      if !(jsTypeofObject ctx) then throw JErr.invalidTermDefinition
      -- the source wraps a processContext call in try/catch here; the body
      -- of processContext in the repository is documentation only, so the
      -- call neither mutates state nor throws
      defn := { defn with scopedContext := some ctx, base := baseURL }
    -- steps 22 to 27 and the commit of step 28 are comments in the source:
    -- `definition` is discarded and `defined` keeps its `false` entry for
    -- `term` on this path
    let _ := defn
    let _ := previousDefinition
    let _ := overrideProtected
    let _ := validateScopedContext
    return (ac, dfd)

/-- Modelled from the spec: the IRI Expansion algorithm. The body of
expandIri in the source (src/unnamed/part_002 lines 831-875) is
documentation only, so this definition follows that documented procedure,
steps 1 to 9. Step 6.5's "form of an IRI" uses the repository's
isAbsoluteIri; step 8's resolution against the base IRI is not modelled
because every call site in the embedded code passes documentRelative =
false, so steps 8 and 9 return the value unchanged. The result is `none`
where the procedure returns null: a warned keyword-shaped value, or a null
IRI mapping from a null term-definition slot. -/
def expandIri (fuel : Nat) (activeContext : ActiveContext) (value : String)
    (documentRelative : Bool) (vocab : Bool)
    (localContext : Option (List (String × Json))) (defined : JsMap Bool) :
    Except JErr (Option String × ActiveContext × JsMap Bool) :=
  match fuel with
  | 0 => .error .fuelExhausted
  | fuel + 1 => do
    let mut ac := activeContext
    let mut dfd := defined
    -- step 1
    if Keywords.contains value then return (some value, ac, dfd)
    -- step 2
    if isKeywordForm value then return (none, ac, dfd)
    -- step 3
    match localContext with
    | some lc =>
      if (jmGet lc value).isSome && jmGet dfd value != some true then
        let r ← createTermDefinition fuel ac lc value dfd none false false [] true
        ac := r.1
        dfd := r.2
    | none => pure ()
    -- step 4
    match jmGet ac.termDefinitions value with
    | some (some d) =>
      if Keywords.contains d.id then return (some d.id, ac, dfd)
    | _ => pure ()
    -- step 5
    if vocab then
      match jmGet ac.termDefinitions value with
      | some (some d) => return (some d.id, ac, dfd)
      | some none => return (none, ac, dfd)
      | none => pure ()
    -- step 6
    if colonAfterFirstChar value then
      let pfx := stringBeforeFirstColon value
      let sfx := stringAfterFirstColon value
      if pfx == "_" || strStartsWith sfx "//" then return (some value, ac, dfd)
      match localContext with
      | some lc =>
        if (jmGet lc pfx).isSome && jmGet dfd pfx != some true then
          let r ← createTermDefinition fuel ac lc pfx dfd none false false [] true
          ac := r.1
          dfd := r.2
      | none => pure ()
      match jmGet ac.termDefinitions pfx with
      | some (some d) =>
        if d.id != "" && d.prefixFlag then return (some (d.id ++ sfx), ac, dfd)
      | _ => pure ()
      if isAbsoluteIri value then return (some value, ac, dfd)
    -- step 7
    if vocab && jsTruthyOptStr ac.vocabularyMapping then
      return (some (ac.vocabularyMapping.getD "" ++ value), ac, dfd)
    -- steps 8 and 9
    let _ := documentRelative
    return (some value, ac, dfd)

end

/-- The keys produced by `Object.keys(activeContext.termDefinitions)` at line
846 of src/src/algorithms/context.ts. `termDefinitions` is a JS `Map` (it is
accessed with `.get`, `.set` and `.delete` throughout that file); `Object.keys`
lists an object's own enumerable string-keyed properties, and a `Map` keeps
its entries in internal slots, not as properties, so the result is the empty
array whatever the map contains. -/
def objectKeysOfMap {α : Type} (_ : JsMap α) : List String := []

/-- Insertion step for the default JS array sort (lexicographic string
order, stable). -/
def insertLex (a : String) : List String → List String
  | [] => [a]
  | b :: rest => if a < b then a :: b :: rest else b :: insertLex a rest

/-- The default JS `Array.prototype.sort` on strings, used on a container
mapping before joining (step 3.2 of createInverseContext). -/
def sortLexStr (l : List String) : List String :=
  l.foldr insertLex []

/-- Insertion step for the comparator
`(a, b) => a.length - b.length || a.localeCompare(b)` at line 846:
ascending length, ties broken lexicographically. -/
def insertByTermOrder (a : String) : List String → List String
  | [] => [a]
  | b :: rest =>
    if a.length < b.length || (a.length == b.length && a < b) then a :: b :: rest
    else b :: insertByTermOrder a rest

/-- Term ordering used by createInverseContext: shortest first, ties broken
lexicographically. -/
def sortTerms (l : List String) : List String :=
  l.foldr insertByTermOrder []

/-- Loop body of createInverseContext, steps 3.1 to 3.17 (source lines
847-957): process one term key against the accumulated inverse context.
Reference mutation of the nested maps in the source becomes explicit
write-back here; the `@any` branch is only ever written at creation
(step 3.6), matching the source. -/
def inverseContextStep (activeContext : ActiveContext) (defaultLanguage : String)
    (result : InverseContext) (key : String) : InverseContext :=
  match jmGet activeContext.termDefinitions key with
  | none => result
  | some none => result
  | some (some defn) =>
    let container :=
      match defn.containerMapping with
      | some l => String.join (sortLexStr l)
      | none => "@none"
    let varIri := defn.id
    let result0 := if jmHas result varIri then result else jmSet result varIri []
    let containerMap := (jmGet result0 varIri).getD []
    let containerMap0 :=
      if jmHas containerMap container then containerMap
      else jmSet containerMap container
        [("@language", []), ("@type", []), ("@any", [("@none", key)])]
    let tlm := (jmGet containerMap0 container).getD []
    let languageMap := (jmGet tlm "@language").getD []
    let typeMap := (jmGet tlm "@type").getD []
    let updIfAbsent := fun (m : ValueTermMap) (k : String) =>
      if jmHas m k then m else jmSet m k key
    let lt :=
      if defn.reverseFlag then
        (languageMap, updIfAbsent typeMap "@reverse")
      else if jsTruthyOptStr defn.typeMapping && defn.typeMapping == some "@none" then
        (updIfAbsent languageMap "@any", updIfAbsent typeMap "@any")
      else if jsTruthyOptStr defn.typeMapping then
        (languageMap, updIfAbsent typeMap (defn.typeMapping.getD ""))
      else if jsTruthyOptStr defn.languageMapping && jsTruthyOptStr defn.directionMapping then
        -- the inner null tests of the source (lines 909-916) are reproduced;
        -- under the truthiness guard the first branch is the one taken
        let langDir :=
          if defn.languageMapping.isSome && defn.directionMapping.isSome then
            strToLower ((defn.languageMapping.getD "") ++ "_" ++ (defn.directionMapping.getD ""))
          else if defn.languageMapping.isSome then strToLower (defn.languageMapping.getD "")
          else if jsTruthyOptStr defn.directionMapping then "_" ++ defn.directionMapping.getD ""
          else "@null"
        (updIfAbsent languageMap langDir, typeMap)
      else if jsTruthyOptStr defn.languageMapping then
        -- the null test of line 923 is dead under the truthiness guard
        (updIfAbsent languageMap (strToLower (defn.languageMapping.getD "")), typeMap)
      else if jsTruthyOptStr defn.directionMapping then
        -- the null test of line 929 is dead under the truthiness guard
        (updIfAbsent languageMap ("_" ++ defn.directionMapping.getD ""), typeMap)
      else if jsTruthyOptStr activeContext.defaultBaseDirection then
        let langDir :=
          strToLower (defaultLanguage ++ "_" ++ activeContext.defaultBaseDirection.getD "")
        (updIfAbsent (updIfAbsent languageMap langDir) "@none", updIfAbsent typeMap "@none")
      else
        (updIfAbsent (updIfAbsent languageMap defaultLanguage) "@none",
          updIfAbsent typeMap "@none")
    let tlm1 := jmSet (jmSet tlm "@language" lt.1) "@type" lt.2
    let containerMap1 := jmSet containerMap0 container tlm1
    jmSet result0 varIri containerMap1

/-- Translation of createInverseContext (src/src/algorithms/context.ts lines
746-961): the default language, the sorted key list from
`Object.keys(activeContext.termDefinitions)`, and the per-key loop. -/
def createInverseContext (activeContext : ActiveContext) : InverseContext :=
  let defaultLanguage :=
    match activeContext.defaultLanguage with
    | some s => if strToLower s != "" then strToLower s else "@none"
    | none => "@none"
  let keys := sortTerms (objectKeysOfMap activeContext.termDefinitions)
  keys.foldl (inverseContextStep activeContext defaultLanguage) []

/-- Step 1 of selectTerm: the inverse context of the active context,
materialized through createInverseContext when it is `null`. The source also
stores the materialized value back into the active context; only the
returned value matters for term selection. -/
def materializeInverse (activeContext : ActiveContext) : InverseContext :=
  match activeContext.inverseContext with
  | none => createInverseContext activeContext
  | some ic => ic

/-- Inner loop of selectTerm (source lines 1032-1035): scan the preferred
values in order against the value map chosen by the discriminator; a missing
value map makes every item miss. -/
def selectPrefValues (valueMap : Option ValueTermMap) : List String → Option String
  | [] => none
  | item :: rest =>
    match valueMap with
    | none => selectPrefValues valueMap rest
    | some m =>
      match jmGet m item with
      | some t => some t
      | none => selectPrefValues valueMap rest

/-- Outer loop of selectTerm (source lines 1023-1036): scan the preferred
containers in order; a container missing from the container map is skipped,
a matching container is searched through the preferred values, and a miss
there moves on to the next container. -/
def selectContainerLoop (containerMap : Option ContainerTermMap) (typeLanguage : String)
    (preferredValues : List String) : List String → Option String
  | [] => none
  | c :: rest =>
    match containerMap with
    | none => selectContainerLoop containerMap typeLanguage preferredValues rest
    | some m =>
      match jmGet m c with
      | none => selectContainerLoop containerMap typeLanguage preferredValues rest
      | some tlm =>
        match selectPrefValues (jmGet tlm typeLanguage) preferredValues with
        | some t => some t
        | none => selectContainerLoop containerMap typeLanguage preferredValues rest

/-- Translation of selectTerm (src/src/algorithms/context.ts lines 985-1040). -/
def selectTerm (activeContext : ActiveContext) (varKeywordIri : String)
    (containers : List String) (typeLanguage : String)
    (preferredValues : List String) : Option String :=
  let inverseContext := materializeInverse activeContext
  let containerMap := jmGet inverseContext varKeywordIri
  selectContainerLoop containerMap typeLanguage preferredValues containers

/-- Statement of claim C6 in the specification's words: the scan returns the
term at the first (container, preferred value) hit, containers in the given
order and, within a matching container, preferred values in the given order,
and is empty when no pair matches, in particular when the IRI has no
inverse-context entry. -/
def selectTermScanSpec (containerMap : Option ContainerTermMap) (typeLanguage : String)
    (preferredValues : List String) (containers : List String) : Option String :=
  containers.findSome? (fun c =>
    (containerMap.bind (fun m => jmGet m c)).bind (fun tlm =>
      preferredValues.findSome? (fun p =>
        (jmGet tlm typeLanguage).bind (fun vm => jmGet vm p))))

/-- An empty active context (all fields at their initial values). -/
def acEmpty : ActiveContext := {}

/-- An active context whose vocabulary mapping is `http://v/`. -/
def acVocab : ActiveContext := { vocabularyMapping := some "http://v/" }

/-- The protected term definition created for `name` by the first map of the
local context of claim C1 ("name" mapped to `ex:n` with `@protected` true),
as the documented procedure would leave it in the active context. -/
def tdProtectedName : TermDefinition :=
  { id := "ex:n", base := some "", prefixFlag := false,
    protectedFlag := true, reverseFlag := false }

/-- An active context already holding the protected definition of `name`. -/
def acC1 : ActiveContext := { termDefinitions := [("name", some tdProtectedName)] }

/-- The second map of claim C1's local context: `name` redefined to
`ex:other`. -/
def lcC1 : List (String × Json) := [("name", Json.str "ex:other")]

/-- Claim C1: redefining a protected term with overrideProtected = false must
raise protected_term_redefinition. Evaluating the code at the failing input:
the call succeeds, and the protected definition has been deleted (step 6 is
implemented) without being replaced (steps 27 and 28 are comments), so no
protected_term_redefinition error exists on this path at all. -/
theorem c1_protected_redefinition_unchecked :
    createTermDefinition 9 acC1 lcC1 "name" [] none false false [] true =
      Except.ok ({ termDefinitions := [] }, [("name", false)]) := rfl

/-- The local context of claim C3's failing input: a plain term mapped to an
absolute IRI. -/
def lcC3 : List (String × Json) := [("t", Json.str "http://e/x")]

/-- Claim C3: a successful createTermDefinition must leave the new definition
in the active context and mark defined[term] = true. Evaluating the code at
the failing input: the call returns without error, yet the term-definitions
map is unchanged (empty) and defined["t"] is still false, because the commit
of procedure step 28 is a comment in the source. -/
theorem c3_definition_not_committed :
    createTermDefinition 9 acEmpty lcC3 "t" [] none false false [] true =
      Except.ok (acEmpty, [("t", false)]) := rfl

/-- The local context of claim C4's failing input: a term whose definition
has an `@reverse` entry and no `@container` sibling. -/
def lcC4 : List (String × Json) :=
  [("t", Json.obj [("@reverse", Json.str "http://e/r")])]

/-- Claim C4: with or without an `@container` sibling, the reverse branch
must set the reverse flag, store the definition and mark defined[term] true.
Evaluating the code at the failing input (no `@container`): the call falls
through to the non-reverse steps 14 to 18, returns without error, stores
nothing, and leaves defined["t"] = false — the flag assignment and commit of
steps 13.6-13.7 sit inside the `@container` branch of the source. -/
theorem c4_reverse_without_container_falls_through :
    createTermDefinition 9 acVocab lcC4 "t" [] none false false [] true =
      Except.ok (acVocab, [("t", false)]) := rfl

/-- The local context of claim C7's failing input: a term-definition map
with the unrecognized key `bogus`. -/
def lcC7 : List (String × Json) :=
  [("t", Json.obj [("@id", Json.str "http://e/x"), ("bogus", Json.bool true)])]

/-- Claim C7: a term-definition value with a key outside the eleven allowed
keywords must fail with invalid_term_definition. Evaluating the code at the
failing input: the call accepts the `bogus` entry and returns without error,
because the unrecognized-key check of procedure step 26 is a comment in the
source. -/
theorem c7_unrecognized_key_accepted :
    createTermDefinition 9 acEmpty lcC7 "t" [] none false false [] true =
      Except.ok (acEmpty, [("t", false)]) := rfl

/-- A plain non-null term definition used as claim C5's failing input. -/
def tdPlainName : TermDefinition :=
  { id := "http://e/name", base := some "", prefixFlag := false,
    protectedFlag := false, reverseFlag := false }

/-- An active context holding exactly one non-null term definition. -/
def acC5 : ActiveContext := { termDefinitions := [("name", some tdPlainName)] }

/-- Claim C5: createInverseContext must visit the non-null term definitions
and return a non-empty inverse context when at least one exists. Evaluating
the code at the failing input: with one non-null definition present the
result is the empty map, because `Object.keys` applied to the
termDefinitions `Map` yields no keys, so the loop body never runs. -/
theorem c5_inverse_context_empty_despite_definition :
    createInverseContext acC5 = ([] : InverseContext) := rfl

/-- Claim C8: the valid-container predicate must accept any array mixing
`@set` with members of the five keywords, in particular `["@set","@graph"]`.
Evaluating the code at the failing input: the two-element-with-`@graph` case
captures the array first and demands `@id` or `@index`, so it returns false. -/
theorem c8_isContainer_rejects_set_graph :
    isContainer (Json.arr [Json.str "@set", Json.str "@graph"]) = false := rfl

/-- The definition committed by the only commit path of the source, the
reverse branch with an `@container` sibling: the reverse flag is set but the
IRI mapping keeps its initial empty string (the assignment of procedure step
13.4 to the definition is also absent from the source). -/
def tdCommittedReverse : TermDefinition :=
  { id := "", base := some "", prefixFlag := false,
    protectedFlag := false, reverseFlag := true,
    containerMapping := some ["@set"] }

/-- The reverse-with-container local context exercising the commit path. -/
def lcReverseSet : List (String × Json) :=
  [("r", Json.obj [("@reverse", Json.str "http://e/r"), ("@container", Json.str "@set")])]

example : createTermDefinition 9 acVocab lcReverseSet "r" [] none false false [] true =
  Except.ok
    ({ acVocab with termDefinitions := [("r", some tdCommittedReverse)] },
      [("r", true)]) := rfl

example : selectTerm { inverseContext := some [("http://e/p",
      [("@none", [("@language", [("en", "lbl")]), ("@type", []),
        ("@any", [("@none", "p0")])])])] }
    "http://e/p" ["@none"] "@language" ["en", "@none"] = some "lbl" := rfl

example : selectTerm { inverseContext := some [("http://e/p",
      [("@none", [("@language", [("en", "lbl")]), ("@type", []),
        ("@any", [("@none", "p0")])])])] }
    "http://e/q" ["@none"] "@language" ["en"] = none := rfl

/-- Inner-loop characterization: scanning the preferred values returns the
first hit of the chosen value map. -/
theorem selectPrefValues_eq_findSome (valueMap : Option ValueTermMap) :
    ∀ preferredValues : List String,
      selectPrefValues valueMap preferredValues =
        preferredValues.findSome? (fun p => valueMap.bind (fun m => jmGet m p))
  | [] => rfl
  | item :: rest => by
    cases valueMap with
    | none =>
      simpa [selectPrefValues, List.findSome?_cons]
        using selectPrefValues_eq_findSome none rest
    | some m =>
      cases h : jmGet m item with
      | none =>
        simpa [selectPrefValues, h, List.findSome?_cons]
          using selectPrefValues_eq_findSome (some m) rest
      | some t => simp [selectPrefValues, h, List.findSome?_cons]

/-- Outer-loop characterization: the container scan of selectTerm returns the
first (container, preferred value) hit, in the given orders. -/
theorem selectContainerLoop_eq_scanSpec (containerMap : Option ContainerTermMap)
    (typeLanguage : String) (preferredValues : List String) :
    ∀ containers : List String,
      selectContainerLoop containerMap typeLanguage preferredValues containers =
        selectTermScanSpec containerMap typeLanguage preferredValues containers
  | [] => rfl
  | c :: rest => by
    have ih := selectContainerLoop_eq_scanSpec containerMap typeLanguage preferredValues rest
    cases containerMap with
    | none =>
      simpa [selectContainerLoop, selectTermScanSpec, List.findSome?_cons] using ih
    | some m =>
      cases h : jmGet m c with
      | none =>
        simpa [selectContainerLoop, selectTermScanSpec, List.findSome?_cons, h] using ih
      | some tlm =>
        have hp := selectPrefValues_eq_findSome (jmGet tlm typeLanguage) preferredValues
        cases hv : selectPrefValues (jmGet tlm typeLanguage) preferredValues with
        | none =>
          simpa [selectContainerLoop, selectTermScanSpec, List.findSome?_cons, h, hv,
            ← hp] using ih
        | some t =>
          simp [selectContainerLoop, selectTermScanSpec, List.findSome?_cons, h, hv, ← hp]

/-- Claim C6: selectTerm scans the inverse-context entry of the IRI
container-by-container in the given order and, within each matching
container, the preferred values in the given order, returning the term at
the first hit; the scan specification is empty when no pair matches,
including when the IRI has no inverse-context entry. -/
theorem c6_selectTerm_scan_equiv (activeContext : ActiveContext) (varKeywordIri : String)
    (containers : List String) (typeLanguage : String) (preferredValues : List String) :
    selectTerm activeContext varKeywordIri containers typeLanguage preferredValues =
      selectTermScanSpec (jmGet (materializeInverse activeContext) varKeywordIri)
        typeLanguage preferredValues containers :=
  selectContainerLoop_eq_scanSpec _ _ _ _

/-- A first-occurrence lookup misses exactly when the key is not among the
entry keys. -/
theorem jmGet_eq_none_iff {α : Type} (m : JsMap α) (k : String) :
    jmGet m k = none ↔ k ∉ m.map Prod.fst := by
  induction m with
  | nil => simp [jmGet]
  | cons p rest ih =>
    by_cases h : p.1 = k
    · simp [jmGet, List.find?_cons_of_pos, h]
    · have hb : ¬((fun q : String × α => q.1 == k) p) := by simp [h]
      have hstep : jmGet (p :: rest) k = jmGet rest k := by
        unfold jmGet
        exact congrArg (Option.map Prod.snd) (List.find?_cons_of_neg rest hb)
      rw [hstep, ih]
      simp only [List.map_cons, List.mem_cons]
      constructor
      · intro hn hor
        rcases hor with he | hm
        · exact h he.symm
        · exact hn hm
      · intro hn hm
        exact hn (Or.inr hm)

/-- The graph object named by claim C9. -/
def graphObjC9 : Json := Json.obj [("@graph", Json.arr []), ("@id", Json.str "ex:g")]

/-- Claim C9, counterexample: this value is a graph object, yet isSubject
classifies it as a subject, contradicting the claim that isSubject is false
for every graph object — the source predicate only excludes `@value`,
`@list` and `@set` keys. -/
theorem c9_graph_object_classified_as_subject :
    isGraphObject graphObjC9 = true ∧ isSubject graphObjC9 = true := ⟨rfl, rfl⟩

/-- A decimal digit character is never the at sign. -/
theorem digitChar_ne_at : ∀ m, m < 10 → Nat.digitChar m ≠ '@' := by decide

/-- The base-10 digit accumulator only ever prepends digit characters, so it
introduces no at sign. -/
theorem toDigitsCore_ten_no_at (fuel : Nat) :
    ∀ (n : Nat) (ds : List Char), '@' ∉ ds → '@' ∉ Nat.toDigitsCore 10 fuel n ds := by
  induction fuel with
  | zero =>
    intro n ds h
    simpa [Nat.toDigitsCore] using h
  | succ f ih =>
    intro n ds h
    have hd : ('@' : Char) ∉ Nat.digitChar (n % 10) :: ds := by
      intro hc
      rcases List.mem_cons.mp hc with he | hm
      · exact digitChar_ne_at (n % 10) (Nat.mod_lt n (by decide)) he.symm
      · exact h hm
    unfold Nat.toDigitsCore
    by_cases hz : n / 10 = 0
    · simpa [hz] using hd
    · simpa [hz] using ih (n / 10) (Nat.digitChar (n % 10) :: ds) hd

/-- The decimal rendering of a natural number contains no at sign. -/
theorem toString_nat_no_at (i : Nat) : '@' ∉ (toString i).toList := by
  have h := toDigitsCore_ten_no_at (i + 1) i [] (by simp)
  simpa [toString, Nat.repr, Nat.toDigits, List.asString, String.toList] using h

/-- No JS array index key equals a string containing an at sign; in
particular the index keys of jsObjectKeys never collide with the JSON-LD
keywords. -/
theorem index_key_ne_at_string (n : Nat) (s : String) (hs : '@' ∈ s.toList) :
    s ∉ (List.range n).map toString := by
  intro hmem
  obtain ⟨i, _, he⟩ := List.mem_map.mp hmem
  rw [← he] at hs
  exact toString_nat_no_at i hs

/-- Claim C9 as amended: isSubject is true exactly on the values passing the
JS object test (maps and arrays) whose key list avoids `@value`, `@list` and
`@set` and either has more than one key or lacks `@id`; graph objects are
not excluded, and every array is classified as a subject because its index
keys never collide with those keywords; scalars and null are never
subjects. -/
theorem c9_isSubject_characterization :
    (∀ kvs : List (String × Json),
      isSubject (Json.obj kvs) = true ↔
        ("@value" ∉ kvs.map Prod.fst ∧ "@list" ∉ kvs.map Prod.fst ∧
          "@set" ∉ kvs.map Prod.fst ∧
          (1 < (kvs.map Prod.fst).length ∨ "@id" ∉ kvs.map Prod.fst))) ∧
    (∀ l : List Json, isSubject (Json.arr l) = true) ∧
    isSubject Json.null = false ∧
    (∀ b : Bool, isSubject (Json.bool b) = false) ∧
    (∀ n : Int, isSubject (Json.num n) = false) ∧
    (∀ s : String, isSubject (Json.str s) = false) := by
  refine ⟨fun kvs => ?_, fun l => ?_, rfl, fun b => rfl, fun n => rfl, fun s => rfl⟩
  · simp [isSubject, jsObjectKeys, List.contains, List.elem_iff, and_assoc]
  · have h1 := index_key_ne_at_string l.length "@value" (by decide)
    have h2 := index_key_ne_at_string l.length "@list" (by decide)
    have h3 := index_key_ne_at_string l.length "@set" (by decide)
    have h4 := index_key_ne_at_string l.length "@id" (by decide)
    simp [isSubject, jsObjectKeys, List.contains, List.elem_iff, h1, h2, h3, h4]

/-- Claim C10: on a map with an `@id` entry, isBlankNode is true exactly
when the entry's value is not a string or is a string starting with the
blank-node prefix, whatever the other keys; on a map without `@id` it is
true exactly when the map is empty or has a key outside `@value`, `@set`,
`@list`; in particular a non-string `@id` is a blank node and an absolute
`@id` is not, regardless of extra keys. -/
theorem c10_isBlankNode_characterization :
    (∀ kvs : List (String × Json),
      isBlankNode (Json.obj kvs) = true ↔
        (match jmGet kvs "@id" with
         | some idv => ∀ s : String, idv = Json.str s → strStartsWith s "_:" = true
         | none => kvs.map Prod.fst = [] ∨
             ∃ k ∈ kvs.map Prod.fst, k ∉ (["@value", "@set", "@list"] : List String))) ∧
    isBlankNode (Json.obj [("@id", Json.num 5)]) = true ∧
    isBlankNode (Json.obj [("@id", Json.str "http://e/x"), ("p", Json.num 1)]) = false := by
  refine ⟨fun kvs => ?_, rfl, rfl⟩
  cases hid : jmGet kvs "@id" with
  | some idv =>
    have hmem : "@id" ∈ kvs.map Prod.fst := by
      by_contra hm
      rw [← jmGet_eq_none_iff kvs "@id"] at hm
      rw [hid] at hm
      cases hm
    have hc : (kvs.map Prod.fst).contains "@id" = true := by
      simpa [List.contains, List.elem_iff] using hmem
    have hfield : jsonField (Json.obj kvs) "@id" = some idv := hid
    simp only [isBlankNode, jsObjectKeys, hc, if_true, hfield]
    cases idv with
    | str s =>
      constructor
      · intro hss s' he
        cases he
        exact hss
      · intro hall
        exact hall s rfl
    | null => exact iff_of_true rfl (fun s he => by cases he)
    | bool b => exact iff_of_true rfl (fun s he => by cases he)
    | num n => exact iff_of_true rfl (fun s he => by cases he)
    | arr l => exact iff_of_true rfl (fun s he => by cases he)
    | obj o => exact iff_of_true rfl (fun s he => by cases he)
  | none =>
    have hmem : "@id" ∉ kvs.map Prod.fst := (jmGet_eq_none_iff kvs "@id").mp hid
    have hc : (kvs.map Prod.fst).contains "@id" = false := by
      by_contra hcc
      rw [Bool.not_eq_false] at hcc
      exact hmem (by simpa [List.contains, List.elem_iff] using hcc)
    simp [isBlankNode, jsObjectKeys, hc, List.contains, List.elem_iff,
      List.length_eq_zero]
    intro x hx
    exact absurd (List.mem_map_of_mem Prod.fst hx) hmem
